import Mathlib

/-!
Verification of the glimpsh dwell-based focus arbitration engine, gaze wire
protocol codec, and grid addressing, shallowly embedded from the Python
source (`glimpsh/terminal/focus.py`, `glimpsh/gaze/protocol.py`,
`glimpsh/tui/grid_adapter.py`).

Conventions of the embedding:
* Python floats are modelled as `Rat` (all values appearing in the claims are
  exact decimals), pane indices and `int` values as `Int`.
* Wall-clock timestamps (`time.time() * 1000`) are passed explicitly as a
  `now : Rat` argument to each stateful operation.
* Side effects (`target.focus_pane(i)`, the `on_focus_change` callback) are
  recorded as event lists in the step output.
* Fallible Python code (code that may raise) returns `Except PyExn _`.
-/

namespace Glimpsh

/-- Truncation toward zero, the behaviour of Python `int()` on a number. -/
def pyIntTrunc (q : Rat) : Int :=
  if 0 ≤ q then ⌊q⌋ else -⌊-q⌋

/-! ## Grid addressing: `glimpsh/tui/grid_adapter.py` -/

/-- `TerminalGridAdapter`: the list of terminals is modelled by its length
(`terminals = len(self._terminals)`), which is all the resolution and
validation logic reads.  The `_inv_cols` / `_inv_rows` fields precomputed by
`__init__` are carried verbatim. -/
structure TerminalGridAdapter where
  terminals : Int
  rows : Int
  cols : Int
  inv_cols : Rat
  inv_rows : Rat
  deriving DecidableEq

/-- `TerminalGridAdapter.__init__`: stores the dimensions and precomputes the
inverses, guarding zero/negative dimensions with `else 0.0`; there is no
validation and no exception. -/
def TerminalGridAdapter.init (terminals rows cols : Int) : TerminalGridAdapter :=
  { terminals := terminals
    rows := rows
    cols := cols
    inv_cols := if 0 < cols then 1 / (cols : Rat) else 0
    inv_rows := if 0 < rows then 1 / (rows : Rat) else 0 }

/-- `TerminalGridAdapter.get_pane_at_position`. -/
def TerminalGridAdapter.get_pane_at_position (a : TerminalGridAdapter)
    (x_ratio y_ratio : Rat) : Option Int :=
  if ¬(0 ≤ x_ratio ∧ x_ratio ≤ 1 ∧ 0 ≤ y_ratio ∧ y_ratio ≤ 1) then none
  else
    let col0 := pyIntTrunc (x_ratio * (a.cols : Rat))
    let row0 := pyIntTrunc (y_ratio * (a.rows : Rat))
    let col := if a.cols ≤ col0 then a.cols - 1 else col0
    let row := if a.rows ≤ row0 then a.rows - 1 else row0
    let index := row * a.cols + col
    if a.terminals ≤ index then none else some index

/-! ## Focus arbitration engine: `glimpsh/terminal/focus.py` -/

/-- The `FocusTarget` protocol: the capability record the engine reads.
`focus_pane` is a side effect and is recorded in `StepOut.focusCalls`. -/
structure FocusTarget where
  pane_count : Int
  rows : Int
  cols : Int
  resolve : Rat → Rat → Option Int

/-- A `TerminalGridAdapter` satisfies the `FocusTarget` protocol. -/
def TerminalGridAdapter.toTarget (a : TerminalGridAdapter) : FocusTarget :=
  { pane_count := a.terminals
    rows := a.rows
    cols := a.cols
    resolve := a.get_pane_at_position }

/-- The immutable configuration of a `FocusManager` (fields set by
`__init__` and never mutated). -/
structure FocusManager where
  target : FocusTarget
  screen_width : Int
  screen_height : Int
  inv_screen_width : Rat
  inv_screen_height : Rat
  dwell_time_ms : Int

/-- `FocusManager.__init__`, configuration part: precomputes the inverse
screen dimensions with the `else 0.0` guard; no validation, no exception. -/
def FocusManager.init (target : FocusTarget) (screen_width screen_height : Int)
    (dwell_time_ms : Int) : FocusManager :=
  { target := target
    screen_width := screen_width
    screen_height := screen_height
    inv_screen_width := if 0 < screen_width then 1 / (screen_width : Rat) else 0
    inv_screen_height := if 0 < screen_height then 1 / (screen_height : Rat) else 0
    dwell_time_ms := dwell_time_ms }

/-- The source's default `dwell_time_ms` argument. -/
def defaultDwellTimeMs : Int := 200

/-- The mutable state of a `FocusManager`. -/
structure FMState where
  current_focus : Option Int
  candidate_focus : Option Int
  candidate_start_time : Option Rat
  deriving DecidableEq

/-- `FocusManager.__init__`, mutable-state part: the source initializes
`self._current_focus: Optional[int] = 0` (pane 0, not `None`) and clears the
candidate fields. -/
def FMState.init : FMState :=
  { current_focus := some 0, candidate_focus := none, candidate_start_time := none }

/-- The result of one engine step: the successor state, the boolean returned
to the caller, the `target.focus_pane` invocations and the
`on_focus_change(old, new)` notifications performed during the step. -/
structure StepOut where
  state : FMState
  ret : Bool
  focusCalls : List Int
  notifs : List (Option Int × Int)
  deriving DecidableEq

/-- The dwell transition logic shared verbatim (duplicated inline in the
source) by `FocusManager.update` and `FocusManager.update_from_cell`, applied
to the already-resolved pane (`none` = out of bounds / invalid cell). -/
def dwellStep (fm : FocusManager) (s : FMState) (paneRes : Option Int)
    (now : Rat) : StepOut :=
  match paneRes with
  | none =>
      ⟨{ current_focus := s.current_focus, candidate_focus := none,
         candidate_start_time := none }, false, [], []⟩
  | some pane_idx =>
      if some pane_idx = s.current_focus then
        ⟨{ current_focus := s.current_focus, candidate_focus := none,
           candidate_start_time := none }, false, [], []⟩
      else if some pane_idx ≠ s.candidate_focus then
        ⟨{ current_focus := s.current_focus, candidate_focus := some pane_idx,
           candidate_start_time := some now }, false, [], []⟩
      else
        match s.candidate_start_time with
        | some start =>
            if (fm.dwell_time_ms : Rat) ≤ now - start then
              ⟨{ current_focus := some pane_idx, candidate_focus := none,
                 candidate_start_time := none }, true, [pane_idx],
               [(s.current_focus, pane_idx)]⟩
            else ⟨s, false, [], []⟩
        | none => ⟨s, false, [], []⟩

/-- `FocusManager.pane_at`: scale by the precomputed inverse screen
dimensions and resolve through the target. -/
def FocusManager.pane_at (fm : FocusManager) (x y : Rat) : Option Int :=
  fm.target.resolve (x * fm.inv_screen_width) (y * fm.inv_screen_height)

/-- `FocusManager.update`: resolve the gaze position, then run the dwell
logic. -/
def FocusManager.update (fm : FocusManager) (s : FMState) (x y now : Rat) :
    StepOut :=
  dwellStep fm s (fm.pane_at x y) now

/-- The cell-validation prefix of `FocusManager.update_from_cell`:
`pane_idx = row * cols + col`, rejected when out of `[0, pane_count)`. -/
def FocusManager.resolveCell (fm : FocusManager) (row col : Int) : Option Int :=
  let pane_idx := row * fm.target.cols + col
  if pane_idx < 0 ∨ fm.target.pane_count ≤ pane_idx then none else some pane_idx

/-- `FocusManager.update_from_cell`: validate the cell-derived index, then
run the identical dwell logic. -/
def FocusManager.update_from_cell (fm : FocusManager) (s : FMState)
    (row col : Int) (now : Rat) : StepOut :=
  dwellStep fm s (fm.resolveCell row col) now

/-- `FocusManager.focus_pane`: manual focus, bypassing dwell. -/
def FocusManager.focus_pane (fm : FocusManager) (s : FMState) (index : Int) :
    StepOut :=
  if index < 0 ∨ fm.target.pane_count ≤ index then ⟨s, false, [], []⟩
  else if some index = s.current_focus then ⟨s, false, [], []⟩
  else
    ⟨{ current_focus := some index, candidate_focus := none,
       candidate_start_time := none }, true, [index], [(s.current_focus, index)]⟩

/-- A gaze update delivered through either entry point of the engine. -/
inductive GazeInput where
  | pos (x y : Rat)
  | cell (row col : Int)
  deriving DecidableEq

/-- The pane an input resolves to (the entry-point-specific part of each
update function). -/
def resolveInput (fm : FocusManager) : GazeInput → Option Int
  | .pos x y => fm.pane_at x y
  | .cell row col => fm.resolveCell row col

/-- Deliver one timed input through the corresponding update entry point. -/
def stepInput (fm : FocusManager) (s : FMState) : GazeInput → Rat → StepOut
  | .pos x y, now => fm.update s x y now
  | .cell row col, now => fm.update_from_cell s row col now

/-- The cumulative result of a sequence of updates. -/
structure RunOut where
  state : FMState
  rets : List Bool
  focusCalls : List Int
  notifs : List (Option Int × Int)
  deriving DecidableEq

/-- Deliver a list of timed inputs in order, accumulating returns and
effects. -/
def runInputs (fm : FocusManager) (s : FMState) :
    List (GazeInput × Rat) → RunOut
  | [] => ⟨s, [], [], []⟩
  | (g, t) :: rest =>
      let o := stepInput fm s g t
      let r := runInputs fm o.state rest
      ⟨r.state, o.ret :: r.rets, o.focusCalls ++ r.focusCalls,
       o.notifs ++ r.notifs⟩

theorem stepInput_eq_dwellStep (fm : FocusManager) (s : FMState)
    (g : GazeInput) (t : Rat) :
    stepInput fm s g t = dwellStep fm s (resolveInput fm g) t := by
  cases g <;> rfl

/-! ### Single-step behaviour of the dwell logic -/

theorem dwellStep_none (fm : FocusManager) (s : FMState) (now : Rat) :
    dwellStep fm s none now =
      ⟨⟨s.current_focus, none, none⟩, false, [], []⟩ := rfl

theorem dwellStep_current (fm : FocusManager) (s : FMState) (p : Int)
    (now : Rat) (h : some p = s.current_focus) :
    dwellStep fm s (some p) now =
      ⟨⟨s.current_focus, none, none⟩, false, [], []⟩ := by
  simp [dwellStep, h]

theorem dwellStep_newCandidate (fm : FocusManager) (s : FMState) (p : Int)
    (now : Rat) (h1 : some p ≠ s.current_focus)
    (h2 : some p ≠ s.candidate_focus) :
    dwellStep fm s (some p) now =
      ⟨⟨s.current_focus, some p, some now⟩, false, [], []⟩ := by
  simp [dwellStep, h1, h2]

theorem dwellStep_commit (fm : FocusManager) (s : FMState) (p : Int)
    (now st : Rat) (h1 : some p ≠ s.current_focus)
    (h2 : s.candidate_focus = some p) (h3 : s.candidate_start_time = some st)
    (h4 : (fm.dwell_time_ms : Rat) ≤ now - st) :
    dwellStep fm s (some p) now =
      ⟨⟨some p, none, none⟩, true, [p], [(s.current_focus, p)]⟩ := by
  simp [dwellStep, h1, h2, h3, h4]

theorem dwellStep_hold (fm : FocusManager) (s : FMState) (p : Int)
    (now st : Rat) (h1 : some p ≠ s.current_focus)
    (h2 : s.candidate_focus = some p) (h3 : s.candidate_start_time = some st)
    (h4 : ¬ (fm.dwell_time_ms : Rat) ≤ now - st) :
    dwellStep fm s (some p) now = ⟨s, false, [], []⟩ := by
  simp [dwellStep, h1, h2, h3, h4]

/-! ### Runs of updates -/

theorem runInputs_cons (fm : FocusManager) (s : FMState) (g : GazeInput)
    (t : Rat) (rest : List (GazeInput × Rat)) :
    runInputs fm s ((g, t) :: rest) =
      ⟨(runInputs fm (stepInput fm s g t).state rest).state,
       (stepInput fm s g t).ret ::
         (runInputs fm (stepInput fm s g t).state rest).rets,
       (stepInput fm s g t).focusCalls ++
         (runInputs fm (stepInput fm s g t).state rest).focusCalls,
       (stepInput fm s g t).notifs ++
         (runInputs fm (stepInput fm s g t).state rest).notifs⟩ := rfl

theorem runInputs_append (fm : FocusManager) (s : FMState)
    (l1 l2 : List (GazeInput × Rat)) :
    runInputs fm s (l1 ++ l2) =
      ⟨(runInputs fm (runInputs fm s l1).state l2).state,
       (runInputs fm s l1).rets ++ (runInputs fm (runInputs fm s l1).state l2).rets,
       (runInputs fm s l1).focusCalls ++
         (runInputs fm (runInputs fm s l1).state l2).focusCalls,
       (runInputs fm s l1).notifs ++
         (runInputs fm (runInputs fm s l1).state l2).notifs⟩ := by
  induction l1 generalizing s with
  | nil => simp [runInputs]
  | cons hd tl ih =>
      obtain ⟨g, t⟩ := hd
      simp [runInputs, ih]

/-- While the candidate for `P` is in flight and every sample still resolves
to `P` within the dwell window, the state is held unchanged with no effects. -/
theorem runInputs_hold (fm : FocusManager) (cur : Option Int) (P : Int)
    (t0 : Rat) (samples : List (GazeInput × Rat))
    (hne : some P ≠ cur)
    (hall : ∀ x ∈ samples, resolveInput fm x.1 = some P ∧
      x.2 - t0 < (fm.dwell_time_ms : Rat)) :
    runInputs fm ⟨cur, some P, some t0⟩ samples =
      ⟨⟨cur, some P, some t0⟩, List.replicate samples.length false, [], []⟩ := by
  induction samples with
  | nil => simp [runInputs]
  | cons hd tl ih =>
      obtain ⟨g, t⟩ := hd
      have h1 := (hall (g, t) (by simp)).1
      have h2 := (hall (g, t) (by simp)).2
      have hstep : stepInput fm ⟨cur, some P, some t0⟩ g t =
          ⟨⟨cur, some P, some t0⟩, false, [], []⟩ := by
        rw [stepInput_eq_dwellStep, h1]
        exact dwellStep_hold fm _ P t t0 hne rfl rfl (by linarith)
      have ihr := ih (fun x hx => hall x (by simp [hx]))
      simp [runInputs, hstep, ihr, List.replicate_succ]

/-- Samples resolving to the committed focus are ignored: every return is
`false`, no effects are produced, and the candidate is cleared. -/
theorem runInputs_alreadyFocused (fm : FocusManager) (s : FMState) (c : Int)
    (samples : List (GazeInput × Rat))
    (hc : s.current_focus = some c)
    (hall : ∀ x ∈ samples, resolveInput fm x.1 = some c) :
    runInputs fm s samples =
      ⟨if samples.isEmpty then s else ⟨some c, none, none⟩,
       List.replicate samples.length false, [], []⟩ := by
  induction samples generalizing s with
  | nil => simp [runInputs]
  | cons hd tl ih =>
      obtain ⟨g, t⟩ := hd
      have h1 := hall (g, t) (by simp)
      have hstep : stepInput fm s g t =
          ⟨⟨s.current_focus, none, none⟩, false, [], []⟩ := by
        rw [stepInput_eq_dwellStep, h1]
        exact dwellStep_current fm s c t hc.symm
      have ihs := ih ⟨s.current_focus, none, none⟩ hc
        (fun x hx => hall x (by simp [hx]))
      simp [runInputs, hstep, ihs, hc]
      rcases tl with _ | ⟨hd2, tl2⟩ <;> simp_all [List.replicate_succ]

/-- C1: for a run of consecutive updates (through either entry point) all
resolving to the same pane `P` with `P` different from the committed focus,
the focus does not change while elapsed time since the first sample of the
run is below the dwell threshold; at the first sample whose elapsed time
reaches the threshold, focus commits to `P` exactly once: the state becomes
`⟨some P, none, none⟩`, the target's `focus_pane` is invoked exactly once
with `P`, and exactly one `on_focus_change (old, P)` notification fires, with
later `P`-resolving samples producing no further effects. -/
theorem C1_dwell_commit_exactly_once (fm : FocusManager) (s0 : FMState)
    (P : Int) (g0 : GazeInput) (t0 : Rat) (pre : List (GazeInput × Rat))
    (gc : GazeInput) (tc : Rat) (post : List (GazeInput × Rat))
    (hne : some P ≠ s0.current_focus)
    (hcand : s0.candidate_focus ≠ some P)
    (h0 : resolveInput fm g0 = some P)
    (hpre : ∀ x ∈ pre, resolveInput fm x.1 = some P ∧
      x.2 - t0 < (fm.dwell_time_ms : Rat))
    (hgc : resolveInput fm gc = some P)
    (htc : (fm.dwell_time_ms : Rat) ≤ tc - t0)
    (hpost : ∀ x ∈ post, resolveInput fm x.1 = some P) :
    (runInputs fm s0 ((g0, t0) :: pre)).state =
        ⟨s0.current_focus, some P, some t0⟩ ∧
    (runInputs fm s0 ((g0, t0) :: pre)).focusCalls = [] ∧
    runInputs fm s0 ((g0, t0) :: pre ++ (gc, tc) :: post) =
      ⟨⟨some P, none, none⟩,
       List.replicate (pre.length + 1) false ++
         true :: List.replicate post.length false,
       [P], [(s0.current_focus, P)]⟩ := by
  have hstep0 : stepInput fm s0 g0 t0 =
      ⟨⟨s0.current_focus, some P, some t0⟩, false, [], []⟩ := by
    rw [stepInput_eq_dwellStep, h0]
    exact dwellStep_newCandidate fm s0 P t0 hne (fun h => hcand h.symm)
  have hhold := runInputs_hold fm s0.current_focus P t0 pre hne hpre
  have hfirst : runInputs fm s0 ((g0, t0) :: pre) =
      ⟨⟨s0.current_focus, some P, some t0⟩,
       false :: List.replicate pre.length false, [], []⟩ := by
    simp [runInputs, hstep0, hhold]
  have hstepc : stepInput fm ⟨s0.current_focus, some P, some t0⟩ gc tc =
      ⟨⟨some P, none, none⟩, true, [P], [(s0.current_focus, P)]⟩ := by
    rw [stepInput_eq_dwellStep, hgc]
    exact dwellStep_commit fm _ P tc t0 hne rfl rfl htc
  have hpost' := runInputs_alreadyFocused fm ⟨some P, none, none⟩ P post rfl hpost
  have hsecond : runInputs fm ⟨s0.current_focus, some P, some t0⟩
      ((gc, tc) :: post) =
      ⟨⟨some P, none, none⟩, true :: List.replicate post.length false,
       [P], [(s0.current_focus, P)]⟩ := by
    simp [runInputs, hstepc, hpost']
  refine ⟨by simp [hfirst], by simp [hfirst], ?_⟩
  rw [show ((g0, t0) :: pre ++ (gc, tc) :: post) =
    ((g0, t0) :: pre) ++ ((gc, tc) :: post) from rfl]
  rw [runInputs_append, hfirst, hsecond]
  simp [List.replicate_succ]

/-- A concrete 2×2 four-pane grid engine with a 100×100 screen and the
default 200 ms dwell threshold, used to instantiate the general theorems. -/
def fm22 : FocusManager :=
  FocusManager.init (TerminalGridAdapter.init 4 2 2).toTarget 100 100
    defaultDwellTimeMs

theorem C1_dwell_commit_exactly_once_witness :
    runInputs fm22 FMState.init
      ((GazeInput.cell 0 1, 0) :: [(GazeInput.cell 0 1, 50), (GazeInput.cell 0 1, 150)] ++
        (GazeInput.cell 0 1, 210) :: [(GazeInput.cell 0 1, 220)]) =
      ⟨⟨some 1, none, none⟩, [false, false, false, true, false], [1],
       [(some 0, 1)]⟩ := by
  have h := C1_dwell_commit_exactly_once fm22 FMState.init 1 (.cell 0 1) 0
    [(.cell 0 1, 50), (.cell 0 1, 150)] (.cell 0 1) 210 [(.cell 0 1, 220)]
    (by decide) (by decide) (by decide)
    (by
      intro x hx
      simp only [List.mem_cons, List.not_mem_nil, or_false] at hx
      rcases hx with rfl | rfl <;>
        exact ⟨by decide, by norm_num [fm22, FocusManager.init, defaultDwellTimeMs]⟩)
    (by decide)
    (by norm_num [fm22, FocusManager.init, defaultDwellTimeMs])
    (by
      intro x hx
      simp only [List.mem_cons, List.not_mem_nil, or_false] at hx
      rcases hx with rfl; decide)
  simpa using h.2.2

/-- C2: with a dwell candidate for `P` in flight since `tcand`, one sample
resolving to any `Q ≠ P` (whether a third pane, which becomes the new
candidate, or the committed focus itself, which clears the candidate)
followed by samples resolving to `P` again restarts the dwell timer for `P`
at the first post-deviation `P` sample's time `u0`: the final sample at time
`v` commits precisely when `v - u0` reaches the threshold, independently of
`tcand`, so time accumulated before the `Q`-interleaved sample never
counts. -/
theorem C2_deviation_restarts_dwell (fm : FocusManager) (cur : Option Int)
    (P Q : Int) (tcand : Rat) (gq : GazeInput) (t1 : Rat) (gp : GazeInput)
    (u0 : Rat) (below : List (GazeInput × Rat)) (gf : GazeInput) (v : Rat)
    (hPcur : some P ≠ cur) (hQP : Q ≠ P)
    (hq : resolveInput fm gq = some Q) (hp : resolveInput fm gp = some P)
    (hbelow : ∀ x ∈ below, resolveInput fm x.1 = some P ∧
      x.2 - u0 < (fm.dwell_time_ms : Rat))
    (hf : resolveInput fm gf = some P) :
    runInputs fm ⟨cur, some P, some tcand⟩
        ((gq, t1) :: (gp, u0) :: below ++ [(gf, v)]) =
      if (fm.dwell_time_ms : Rat) ≤ v - u0 then
        ⟨⟨some P, none, none⟩,
         false :: false :: (List.replicate below.length false ++ [true]),
         [P], [(cur, P)]⟩
      else
        ⟨⟨cur, some P, some u0⟩,
         false :: false :: (List.replicate below.length false ++ [false]),
         [], []⟩ := by
  have tail : ∀ (cand : Option Int) (start : Option Rat), some P ≠ cand →
      runInputs fm ⟨cur, cand, start⟩ ((gp, u0) :: (below ++ [(gf, v)])) =
        if (fm.dwell_time_ms : Rat) ≤ v - u0 then
          ⟨⟨some P, none, none⟩,
           false :: (List.replicate below.length false ++ [true]),
           [P], [(cur, P)]⟩
        else
          ⟨⟨cur, some P, some u0⟩,
           false :: (List.replicate below.length false ++ [false]),
           [], []⟩ := by
    intro cand start hcand
    have hstep2 : stepInput fm ⟨cur, cand, start⟩ gp u0 =
        ⟨⟨cur, some P, some u0⟩, false, [], []⟩ := by
      rw [stepInput_eq_dwellStep, hp]
      exact dwellStep_newCandidate fm _ P u0 hPcur hcand
    have hhold := runInputs_hold fm cur P u0 below hPcur hbelow
    have hlast : runInputs fm ⟨cur, some P, some u0⟩ [(gf, v)] =
        if (fm.dwell_time_ms : Rat) ≤ v - u0 then
          ⟨⟨some P, none, none⟩, [true], [P], [(cur, P)]⟩
        else
          ⟨⟨cur, some P, some u0⟩, [false], [], []⟩ := by
      by_cases hd : (fm.dwell_time_ms : Rat) ≤ v - u0
      · have := dwellStep_commit fm ⟨cur, some P, some u0⟩ P v u0 hPcur rfl rfl hd
        simp [runInputs, stepInput_eq_dwellStep, hf, this, hd]
      · have := dwellStep_hold fm ⟨cur, some P, some u0⟩ P v u0 hPcur rfl rfl hd
        simp [runInputs, stepInput_eq_dwellStep, hf, this, hd]
    have hmid : runInputs fm ⟨cur, some P, some u0⟩ (below ++ [(gf, v)]) =
        ⟨(runInputs fm ⟨cur, some P, some u0⟩ [(gf, v)]).state,
         List.replicate below.length false ++
           (runInputs fm ⟨cur, some P, some u0⟩ [(gf, v)]).rets,
         (runInputs fm ⟨cur, some P, some u0⟩ [(gf, v)]).focusCalls,
         (runInputs fm ⟨cur, some P, some u0⟩ [(gf, v)]).notifs⟩ := by
      rw [runInputs_append, hhold]
      simp
    by_cases hd : (fm.dwell_time_ms : Rat) ≤ v - u0
    · rw [if_pos hd] at hlast ⊢
      rw [hlast] at hmid
      simp [runInputs, hstep2, hmid]
    · rw [if_neg hd] at hlast ⊢
      rw [hlast] at hmid
      simp [runInputs, hstep2, hmid]
  rw [show ((gq, t1) :: (gp, u0) :: below ++ [(gf, v)] :
        List (GazeInput × Rat)) =
      (gq, t1) :: ((gp, u0) :: (below ++ [(gf, v)])) from rfl]
  by_cases hQc : some Q = cur
  · have hstep1 : stepInput fm ⟨cur, some P, some tcand⟩ gq t1 =
        ⟨⟨cur, none, none⟩, false, [], []⟩ := by
      rw [stepInput_eq_dwellStep, hq]
      exact dwellStep_current fm ⟨cur, some P, some tcand⟩ Q t1 hQc
    have ht := tail none none (by simp)
    by_cases hd : (fm.dwell_time_ms : Rat) ≤ v - u0
    · rw [if_pos hd] at ht ⊢
      rw [runInputs_cons, hstep1]
      simp [ht]
    · rw [if_neg hd] at ht ⊢
      rw [runInputs_cons, hstep1]
      simp [ht]
  · have hstep1 : stepInput fm ⟨cur, some P, some tcand⟩ gq t1 =
        ⟨⟨cur, some Q, some t1⟩, false, [], []⟩ := by
      rw [stepInput_eq_dwellStep, hq]
      exact dwellStep_newCandidate fm _ Q t1 hQc (by simp [hQP])
    have ht := tail (some Q) (some t1)
      (by simp only [ne_eq, Option.some.injEq]; exact fun h => hQP h.symm)
    by_cases hd : (fm.dwell_time_ms : Rat) ≤ v - u0
    · rw [if_pos hd] at ht ⊢
      rw [runInputs_cons, hstep1]
      simp [ht]
    · rw [if_neg hd] at ht ⊢
      rw [runInputs_cons, hstep1]
      simp [ht]

theorem C2_deviation_restarts_dwell_witness :
    runInputs fm22 ⟨some 0, some 1, some 0⟩
      [(GazeInput.cell 1 0, 100), (GazeInput.cell 0 1, 120),
       (GazeInput.cell 0 1, 250)] =
      ⟨⟨some 0, some 1, some 120⟩, [false, false, false], [], []⟩ := by
  have h := C2_deviation_restarts_dwell fm22 (some 0) 1 2 0 (.cell 1 0) 100
    (.cell 0 1) 120 [] (.cell 0 1) 250
    (by decide) (by decide) (by decide) (by decide)
    (by simp) (by decide)
  rw [if_neg (by norm_num [fm22, FocusManager.init, defaultDwellTimeMs])] at h
  simpa using h

/-- C3: an update resolving to no pane — a position outside the viewport for
`update`, or a cell whose row-major index is outside `[0, pane_count)` for
`update_from_cell` — clears the dwell candidate, leaves the committed focus
unchanged, returns `false`, invokes no target operation and fires no
notification. -/
theorem C3_no_pane_clears_candidate (fm : FocusManager) (s : FMState)
    (x y now : Rat) (row col : Int)
    (h1 : fm.pane_at x y = none)
    (h2 : row * fm.target.cols + col < 0 ∨
      fm.target.pane_count ≤ row * fm.target.cols + col) :
    fm.update s x y now = ⟨⟨s.current_focus, none, none⟩, false, [], []⟩ ∧
    fm.update_from_cell s row col now =
      ⟨⟨s.current_focus, none, none⟩, false, [], []⟩ := by
  constructor
  · rw [FocusManager.update, h1]
    exact dwellStep_none fm s now
  · have hcell : fm.resolveCell row col = none := by
      simp only [FocusManager.resolveCell]
      rw [if_pos h2]
    rw [FocusManager.update_from_cell, hcell]
    exact dwellStep_none fm s now

theorem C3_no_pane_clears_candidate_witness :
    fm22.update ⟨some 0, some 2, some 5⟩ 150 20 99 =
      ⟨⟨some 0, none, none⟩, false, [], []⟩ ∧
    fm22.update_from_cell ⟨some 0, some 2, some 5⟩ 5 0 99 =
      ⟨⟨some 0, none, none⟩, false, [], []⟩ :=
  C3_no_pane_clears_candidate fm22 ⟨some 0, some 2, some 5⟩ 150 20 99 5 0
    (by
      norm_num [fm22, FocusManager.init, FocusManager.pane_at,
        TerminalGridAdapter.toTarget, TerminalGridAdapter.init,
        TerminalGridAdapter.get_pane_at_position])
    (by decide)

/-- C4: a run of updates all resolving to the already-committed focus never
invokes the target's `focus_pane`, never fires a notification, returns
`false` each time, leaves the committed focus unchanged, and clears the
dwell candidate. -/
theorem C4_refocus_is_noop (fm : FocusManager) (s0 : FMState) (c : Int)
    (samples : List (GazeInput × Rat))
    (hc : s0.current_focus = some c)
    (hall : ∀ x ∈ samples, resolveInput fm x.1 = some c) :
    (runInputs fm s0 samples).focusCalls = [] ∧
    (runInputs fm s0 samples).notifs = [] ∧
    (runInputs fm s0 samples).rets = List.replicate samples.length false ∧
    (runInputs fm s0 samples).state.current_focus = s0.current_focus ∧
    (samples ≠ [] → (runInputs fm s0 samples).state.candidate_focus = none ∧
      (runInputs fm s0 samples).state.candidate_start_time = none) := by
  have h := runInputs_alreadyFocused fm s0 c samples hc hall
  rcases samples with _ | ⟨hd, tl⟩ <;> simp_all

theorem C4_refocus_is_noop_witness :
    (runInputs fm22 FMState.init
        [(GazeInput.cell 0 0, 10), (GazeInput.cell 0 0, 500)]).focusCalls = [] ∧
    (runInputs fm22 FMState.init
        [(GazeInput.cell 0 0, 10), (GazeInput.cell 0 0, 500)]).notifs = [] ∧
    (runInputs fm22 FMState.init
        [(GazeInput.cell 0 0, 10), (GazeInput.cell 0 0, 500)]).rets =
      List.replicate 2 false ∧
    (runInputs fm22 FMState.init
        [(GazeInput.cell 0 0, 10), (GazeInput.cell 0 0, 500)]).state.current_focus =
      FMState.init.current_focus ∧
    ([(GazeInput.cell 0 0, 10), (GazeInput.cell 0 0, 500)] ≠
        ([] : List (GazeInput × Rat)) →
      (runInputs fm22 FMState.init
          [(GazeInput.cell 0 0, 10), (GazeInput.cell 0 0, 500)]).state.candidate_focus =
        none ∧
      (runInputs fm22 FMState.init
          [(GazeInput.cell 0 0, 10), (GazeInput.cell 0 0, 500)]).state.candidate_start_time =
        none) :=
  C4_refocus_is_noop fm22 FMState.init 0
    [(GazeInput.cell 0 0, 10), (GazeInput.cell 0 0, 500)] (by decide)
    (by
      intro x hx
      simp only [List.mem_cons, List.not_mem_nil, or_false] at hx
      rcases hx with rfl | rfl <;> decide)

/-! ### Reachable-state invariant of the engine (C5) -/

/-- One public mutation of a `FocusManager`: a gaze update through either
entry point, or a manual `focus_pane` call. -/
inductive FMOp where
  | gaze (g : GazeInput) (now : Rat)
  | manual (index : Int)

/-- The state reached after one operation. -/
def applyOp (fm : FocusManager) (s : FMState) : FMOp → FMState
  | .gaze g now => (stepInput fm s g now).state
  | .manual index => (fm.focus_pane s index).state

/-- The state reached after a sequence of operations. -/
def applyOps (fm : FocusManager) (s : FMState) : List FMOp → FMState
  | [] => s
  | op :: rest => applyOps fm (applyOp fm s op) rest

/-- A target whose position resolution only produces indices in
`[0, pane_count)` (the grid adapter satisfies this for positive grid
dimensions). -/
def TargetSound (t : FocusTarget) : Prop :=
  ∀ x y i, t.resolve x y = some i → 0 ≤ i ∧ i < t.pane_count

/-- The committed focus is a valid pane index. -/
def ValidFocus (fm : FocusManager) (s : FMState) : Prop :=
  ∃ k, s.current_focus = some k ∧ 0 ≤ k ∧ k < fm.target.pane_count

theorem dwellStep_state_current_focus (fm : FocusManager) (s : FMState)
    (paneRes : Option Int) (now : Rat) :
    (dwellStep fm s paneRes now).state.current_focus = s.current_focus ∨
    (dwellStep fm s paneRes now).state.current_focus = paneRes := by
  rcases paneRes with _ | p
  · exact Or.inl rfl
  · rcases hst : s.candidate_start_time with _ | st <;>
      · simp only [dwellStep, hst]
        split_ifs <;> simp

theorem resolveInput_mem_range (fm : FocusManager)
    (hsound : TargetSound fm.target) (g : GazeInput) (i : Int)
    (h : resolveInput fm g = some i) : 0 ≤ i ∧ i < fm.target.pane_count := by
  cases g with
  | pos x y => exact hsound _ _ _ h
  | cell row col =>
      simp only [resolveInput, FocusManager.resolveCell] at h
      split_ifs at h with hcond
      obtain rfl : row * fm.target.cols + col = i := Option.some.inj h
      push_neg at hcond
      omega

theorem applyOp_valid (fm : FocusManager) (hsound : TargetSound fm.target)
    (s : FMState) (op : FMOp) (h : ValidFocus fm s) :
    ValidFocus fm (applyOp fm s op) := by
  obtain ⟨k, hk, hk0, hkc⟩ := h
  cases op with
  | gaze g now =>
      rw [applyOp, stepInput_eq_dwellStep]
      rcases dwellStep_state_current_focus fm s (resolveInput fm g) now with
        hcur | hcur
      · exact ⟨k, by rw [hcur, hk], hk0, hkc⟩
      · rcases hres : resolveInput fm g with _ | p
        · rw [hres, dwellStep_none] at hcur
          simp only at hcur
          rw [hk] at hcur
          cases hcur
        · rw [hres] at hcur
          obtain ⟨hp0, hpc⟩ := resolveInput_mem_range fm hsound g p hres
          exact ⟨p, hcur, hp0, hpc⟩
  | manual index =>
      simp only [applyOp, FocusManager.focus_pane]
      split_ifs with h1 h2
      · exact ⟨k, hk, hk0, hkc⟩
      · exact ⟨k, hk, hk0, hkc⟩
      · push_neg at h1
        exact ⟨index, rfl, by omega, by omega⟩

theorem applyOps_valid (fm : FocusManager) (hsound : TargetSound fm.target)
    (s : FMState) (ops : List FMOp) (h : ValidFocus fm s) :
    ValidFocus fm (applyOps fm s ops) := by
  induction ops generalizing s with
  | nil => exact h
  | cons op rest ih => exact ih _ (applyOp_valid fm hsound s op h)

/-- C5 counterexample: at construction (`FocusManager.__init__`) the
committed focus is pane `0`, not absent, so the claimed "absent before the
first focus commit" fails on the very first reachable state. -/
theorem C5_counterexample_initial_focus_not_absent :
    FMState.init.current_focus = some 0 ∧
      FMState.init.current_focus ≠ none := by decide

/-- C5 (amended): the committed focus is never absent.  It is pane `0` at
construction, and for every target that resolves only to valid indices and
has at least one pane, every state reachable by `update`,
`update_from_cell` and `focus_pane` calls has a committed focus that is a
valid pane index in `[0, pane_count)`. -/
theorem C5_amended_reachable_focus_valid (fm : FocusManager)
    (ops : List FMOp) (hsound : TargetSound fm.target)
    (hpc : 0 < fm.target.pane_count) :
    ∃ k, (applyOps fm FMState.init ops).current_focus = some k ∧
      0 ≤ k ∧ k < fm.target.pane_count :=
  applyOps_valid fm hsound _ ops ⟨0, rfl, le_refl 0, hpc⟩

/-! ### Soundness of the grid adapter's resolution (positive dimensions) -/

theorem pyIntTrunc_eq_floor (q : Rat) (h : 0 ≤ q) : pyIntTrunc q = ⌊q⌋ := by
  rw [pyIntTrunc, if_pos h]

theorem pyIntTrunc_nonneg (q : Rat) (h : 0 ≤ q) : 0 ≤ pyIntTrunc q := by
  rw [pyIntTrunc_eq_floor q h]
  exact Int.floor_nonneg.mpr h

theorem TerminalGridAdapter.get_pane_at_position_sound
    (a : TerminalGridAdapter) (hr : 1 ≤ a.rows) (hc : 1 ≤ a.cols)
    (x y : Rat) (i : Int) (h : a.get_pane_at_position x y = some i) :
    0 ≤ i ∧ i < a.terminals := by
  simp only [TerminalGridAdapter.get_pane_at_position] at h
  by_cases hbc : ¬(0 ≤ x ∧ x ≤ 1 ∧ 0 ≤ y ∧ y ≤ 1)
  · rw [if_pos hbc] at h
    cases h
  · rw [if_neg hbc] at h
    obtain ⟨hx0, hx1, hy0, hy1⟩ := not_not.mp hbc
    by_cases hidx : a.terminals ≤
        (if a.rows ≤ pyIntTrunc (y * (a.rows : Rat)) then a.rows - 1
          else pyIntTrunc (y * (a.rows : Rat))) * a.cols +
        (if a.cols ≤ pyIntTrunc (x * (a.cols : Rat)) then a.cols - 1
          else pyIntTrunc (x * (a.cols : Rat)))
    · rw [if_pos hidx] at h
      cases h
    · rw [if_neg hidx] at h
      obtain rfl := Option.some.inj h
      have hcR : (0:Rat) ≤ (a.cols : Rat) := by
        exact_mod_cast (by omega : (0:Int) ≤ a.cols)
      have hrR : (0:Rat) ≤ (a.rows : Rat) := by
        exact_mod_cast (by omega : (0:Int) ≤ a.rows)
      have h1 : 0 ≤ pyIntTrunc (x * (a.cols : Rat)) :=
        pyIntTrunc_nonneg _ (mul_nonneg hx0 hcR)
      have h2 : 0 ≤ pyIntTrunc (y * (a.rows : Rat)) :=
        pyIntTrunc_nonneg _ (mul_nonneg hy0 hrR)
      have hcol : 0 ≤ (if a.cols ≤ pyIntTrunc (x * (a.cols : Rat))
          then a.cols - 1 else pyIntTrunc (x * (a.cols : Rat))) := by
        split_ifs <;> omega
      have hrow : 0 ≤ (if a.rows ≤ pyIntTrunc (y * (a.rows : Rat))
          then a.rows - 1 else pyIntTrunc (y * (a.rows : Rat))) := by
        split_ifs <;> omega
      exact ⟨add_nonneg (mul_nonneg hrow (by omega)) hcol, not_le.mp hidx⟩

theorem TerminalGridAdapter.toTarget_sound (a : TerminalGridAdapter)
    (hr : 1 ≤ a.rows) (hc : 1 ≤ a.cols) : TargetSound a.toTarget :=
  fun x y i h => a.get_pane_at_position_sound hr hc x y i h

theorem fm22_target_sound : TargetSound fm22.target :=
  TerminalGridAdapter.toTarget_sound _ (by decide) (by decide)

theorem C5_amended_reachable_focus_valid_witness :
    ∃ k, (applyOps fm22 FMState.init
        [FMOp.gaze (GazeInput.cell 0 1) 0, FMOp.manual 3]).current_focus =
      some k ∧ 0 ≤ k ∧ k < fm22.target.pane_count :=
  C5_amended_reachable_focus_valid fm22
    [FMOp.gaze (GazeInput.cell 0 1) 0, FMOp.manual 3]
    fm22_target_sound (by decide)

/-! ### Grid addressing (C8, C9) -/

/-- The resolution algorithm exactly as the specification words it: reject
ratios outside `[0,1]`, take floors, clamp with `min` to `cols-1`/`rows-1`,
form the row-major index, and return absent when the index reaches the pane
count.  Stated separately from `get_pane_at_position` so the code can be
checked against the spec text. -/
def resolveSpecC8 (a : TerminalGridAdapter) (x y : Rat) : Option Int :=
  if x < 0 ∨ 1 < x ∨ y < 0 ∨ 1 < y then none
  else
    let col := min ⌊x * (a.cols : Rat)⌋ (a.cols - 1)
    let row := min ⌊y * (a.rows : Rat)⌋ (a.rows - 1)
    let index := row * a.cols + col
    if a.terminals ≤ index then none else some index

/-- C8: for positive grid dimensions, `get_pane_at_position` computes
exactly the spec's floor-clamp-index algorithm, and on the 2×2 four-pane
grid the ratios (0.999, 0.999), (0, 0) and (1.5, 0.2) resolve to pane 3,
pane 0 and absent respectively. -/
theorem C8_grid_resolution :
    (∀ (a : TerminalGridAdapter) (x y : Rat), 1 ≤ a.rows → 1 ≤ a.cols →
      a.get_pane_at_position x y = resolveSpecC8 a x y) ∧
    (TerminalGridAdapter.init 4 2 2).get_pane_at_position
      (999/1000) (999/1000) = some 3 ∧
    (TerminalGridAdapter.init 4 2 2).get_pane_at_position 0 0 = some 0 ∧
    (TerminalGridAdapter.init 4 2 2).get_pane_at_position (3/2) (1/5) =
      none := by
  refine ⟨?_, ?_, ?_, ?_⟩
  · intro a x y hr hc
    by_cases hbx : x < 0 ∨ 1 < x ∨ y < 0 ∨ 1 < y
    · have hb : ¬(0 ≤ x ∧ x ≤ 1 ∧ 0 ≤ y ∧ y ≤ 1) := by
        rcases hbx with h | h | h | h <;> rintro ⟨h1, h2, h3, h4⟩ <;> linarith
      simp only [TerminalGridAdapter.get_pane_at_position, resolveSpecC8]
      rw [if_pos hb, if_pos hbx]
    · push_neg at hbx
      obtain ⟨hx0, hx1, hy0, hy1⟩ := hbx
      have hb : ¬¬(0 ≤ x ∧ x ≤ 1 ∧ 0 ≤ y ∧ y ≤ 1) :=
        not_not.mpr ⟨hx0, hx1, hy0, hy1⟩
      have hcR : (0:Rat) ≤ (a.cols : Rat) := by
        exact_mod_cast (by omega : (0:Int) ≤ a.cols)
      have hrR : (0:Rat) ≤ (a.rows : Rat) := by
        exact_mod_cast (by omega : (0:Int) ≤ a.rows)
      have hcol : (if a.cols ≤ pyIntTrunc (x * (a.cols : Rat)) then a.cols - 1
          else pyIntTrunc (x * (a.cols : Rat))) =
          min ⌊x * (a.cols : Rat)⌋ (a.cols - 1) := by
        rw [pyIntTrunc_eq_floor _ (mul_nonneg hx0 hcR)]
        split_ifs with hcc <;> omega
      have hrow : (if a.rows ≤ pyIntTrunc (y * (a.rows : Rat)) then a.rows - 1
          else pyIntTrunc (y * (a.rows : Rat))) =
          min ⌊y * (a.rows : Rat)⌋ (a.rows - 1) := by
        rw [pyIntTrunc_eq_floor _ (mul_nonneg hy0 hrR)]
        split_ifs with hrr <;> omega
      have hb2 : ¬(x < 0 ∨ 1 < x ∨ y < 0 ∨ 1 < y) := by
        push_neg
        exact ⟨hx0, hx1, hy0, hy1⟩
      simp only [TerminalGridAdapter.get_pane_at_position, resolveSpecC8]
      rw [if_neg hb, if_neg hb2, hcol, hrow]
  · norm_num [TerminalGridAdapter.init, TerminalGridAdapter.get_pane_at_position,
      pyIntTrunc]
  · norm_num [TerminalGridAdapter.init, TerminalGridAdapter.get_pane_at_position,
      pyIntTrunc]
  · norm_num [TerminalGridAdapter.init, TerminalGridAdapter.get_pane_at_position]

theorem C8_grid_resolution_witness :
    (TerminalGridAdapter.init 4 2 2).get_pane_at_position (1/2) (1/2) =
      resolveSpecC8 (TerminalGridAdapter.init 4 2 2) (1/2) (1/2) :=
  C8_grid_resolution.1 (TerminalGridAdapter.init 4 2 2) (1/2) (1/2)
    (by decide) (by decide)

/-- C9 counterexample: zero grid dimensions are accepted at construction —
`TerminalGridAdapter.__init__` and `FocusManager.__init__` run no
validation, only guarding the precomputed inverses to `0.0` — and the
zero-dimension grid then resolves the in-viewport position (0.5, 0.5) to
the out-of-range pane index `-1` mid-stream, contradicting rejection with
a configuration error at construction. -/
theorem C9_counterexample_zero_dims_accepted :
    TerminalGridAdapter.init 4 0 0 = ⟨4, 0, 0, 0, 0⟩ ∧
    FocusManager.init (TerminalGridAdapter.init 4 0 0).toTarget 0 0 200 =
      ⟨(TerminalGridAdapter.init 4 0 0).toTarget, 0, 0, 0, 0, 200⟩ ∧
    (TerminalGridAdapter.init 4 0 0).get_pane_at_position (1/2) (1/2) =
      some (-1) := by
  refine ⟨by simp [TerminalGridAdapter.init], by simp [FocusManager.init], ?_⟩
  norm_num [TerminalGridAdapter.init, TerminalGridAdapter.get_pane_at_position,
    pyIntTrunc]

/-- C9 (amended): constructors accept zero dimensions without error — the
only guard is setting the precomputed inverses to `0` — and the invalid
dimensions surface mid-stream instead: a zero-row zero-column adapter
resolves every in-viewport ratio to the out-of-range pane index `-1`. -/
theorem C9_amended_zero_dims_not_rejected (t : Int) (x y : Rat)
    (ht : 0 ≤ t) (hx0 : 0 ≤ x) (hx1 : x ≤ 1) (hy0 : 0 ≤ y) (hy1 : y ≤ 1) :
    (TerminalGridAdapter.init t 0 0).inv_cols = 0 ∧
    (TerminalGridAdapter.init t 0 0).inv_rows = 0 ∧
    (TerminalGridAdapter.init t 0 0).get_pane_at_position x y =
      some (-1) := by
  refine ⟨by simp [TerminalGridAdapter.init], by simp [TerminalGridAdapter.init], ?_⟩
  simp only [TerminalGridAdapter.get_pane_at_position, TerminalGridAdapter.init]
  rw [if_neg (not_not.mpr ⟨hx0, hx1, hy0, hy1⟩)]
  norm_num [pyIntTrunc]
  omega

theorem C9_amended_zero_dims_not_rejected_witness :
    (TerminalGridAdapter.init 4 0 0).inv_cols = 0 ∧
    (TerminalGridAdapter.init 4 0 0).inv_rows = 0 ∧
    (TerminalGridAdapter.init 4 0 0).get_pane_at_position 0 1 =
      some (-1) :=
  C9_amended_zero_dims_not_rejected 4 0 1 (by decide) (by decide)
    (by decide) (by decide) (by decide)

/-! ## Gaze wire protocol codec: `glimpsh/gaze/protocol.py` -/

/-- Python values appearing in structured payloads (the JSON value
universe). -/
inductive PVal where
  | null
  | bool (b : Bool)
  | num (q : Rat)
  | str (s : String)
  | list (l : List PVal)
  | dict (d : List (String × PVal))

/-- A Python `float` as carried by this embedding: an exact rational (the
structured path's arithmetic is exact decimal), the raw little-endian
32-bit pattern read from the wire (binary path — the bit pattern determines
the float value, which never feeds further arithmetic here), or the ambient
receipt time `time.time()` used as the 8-byte default. -/
inductive PyFloat where
  | ofRat (q : Rat)
  | ofBits (w : Nat)
  | receiptTime
  deriving DecidableEq

/-- Exceptions raised by the decoding helpers. -/
inductive PyExn where
  | valueError
  | typeError
  | attributeError
  deriving DecidableEq

/-- `GazePoint`, with `cell_row`/`cell_col` stored exactly as extracted
(the source performs no conversion on them). -/
structure GazePoint where
  x : PyFloat
  y : PyFloat
  timestamp : PyFloat
  confidence : PyFloat
  seq : Int
  cell_row : Option PVal
  cell_col : Option PVal

/-- The little-endian 32-bit word starting at byte offset `i`. -/
def wordAt (data : List Nat) (i : Nat) : Nat :=
  data.getD i 0 + 256 * (data.getD (i + 1) 0 +
    256 * (data.getD (i + 2) 0 + 256 * data.getD (i + 3) 0))

/-- `GazePoint.from_binary`: `struct.unpack` of the first 16/12/8 bytes,
chosen by the `>=` length comparisons of the source; fewer than 8 bytes
raises `ValueError`. -/
def GazePoint.from_binary (data : List Nat) : Except PyExn GazePoint :=
  if 16 ≤ data.length then
    .ok ⟨.ofBits (wordAt data 0), .ofBits (wordAt data 4),
      .ofBits (wordAt data 8), .ofBits (wordAt data 12), 0, none, none⟩
  else if 12 ≤ data.length then
    .ok ⟨.ofBits (wordAt data 0), .ofBits (wordAt data 4),
      .ofBits (wordAt data 8), .ofRat 1, 0, none, none⟩
  else if 8 ≤ data.length then
    .ok ⟨.ofBits (wordAt data 0), .ofBits (wordAt data 4),
      .receiptTime, .ofRat 1, 0, none, none⟩
  else .error .valueError

/-- Decimal digit string to number. -/
def digitsToNat (l : List Char) : Nat :=
  l.foldl (fun a c => 10 * a + (c.toNat - 48)) 0

/-- Python `float(s)` on a plain unsigned decimal literal (the forms the
protocol uses); other strings raise. -/
def strToRat? (s : String) : Option Rat :=
  let cs := s.toList
  let intPart := cs.takeWhile (fun c => c.toNat ≠ 46)
  let rest := cs.dropWhile (fun c => c.toNat ≠ 46)
  match rest with
  | [] =>
      if intPart ≠ [] ∧ intPart.all Char.isDigit = true then
        some (digitsToNat intPart)
      else none
  | _ :: frac =>
      if (intPart ≠ [] ∨ frac ≠ []) ∧ intPart.all Char.isDigit = true ∧
          frac.all Char.isDigit = true then
        some ((digitsToNat intPart : Rat) +
          (digitsToNat frac : Rat) / (10 : Rat) ^ frac.length)
      else none

/-- Python `int(s)` on a plain unsigned decimal integer literal. -/
def strToInt? (s : String) : Option Int :=
  let cs := s.toList
  if cs ≠ [] ∧ cs.all Char.isDigit = true then some (digitsToNat cs)
  else none

/-- Python `float(v)`. -/
def pyFloatOf : PVal → Except PyExn Rat
  | .num q => .ok q
  | .bool b => .ok (if b then 1 else 0)
  | .str s =>
      match strToRat? s with
      | some q => .ok q
      | none => .error .valueError
  | _ => .error .typeError

/-- Python `int(v)` (truncation toward zero on numbers). -/
def pyIntOf : PVal → Except PyExn Int
  | .num q => .ok (pyIntTrunc q)
  | .bool b => .ok (if b then 1 else 0)
  | .str s =>
      match strToInt? s with
      | some n => .ok n
      | none => .error .valueError
  | _ => .error .typeError

/-- Python truthiness of a value. -/
def truthy : PVal → Bool
  | .null => false
  | .bool b => b
  | .num q => q != 0
  | .str s => !s.isEmpty
  | .list l => !l.isEmpty
  | .dict d => !d.isEmpty

/-- Mapping lookup (`data.get(k)`). -/
def dictGet (d : List (String × PVal)) (k : String) : Option PVal :=
  (d.find? (fun p => p.1 == k)).map (fun p => p.2)

/-- The `cell` extraction prefix of `GazePoint.from_dict`: a present and
truthy `cell` has `.get` called on it, which raises `AttributeError` on a
non-mapping. -/
def cellFields (d : List (String × PVal)) :
    Except PyExn (Option PVal × Option PVal) :=
  match dictGet d "cell" with
  | some v =>
      if truthy v then
        match v with
        | .dict c => .ok (dictGet c "row", dictGet c "col")
        | _ => .error .attributeError
      else .ok (none, none)
  | none => .ok (none, none)

/-- `GazePoint.from_dict`: coordinate fields with `x_px`/`y_px` preferred
over `x`/`y`, defaults 0 / 0 / 0 / 1.0 / 0, field conversions in source
order; conversions may raise. -/
def GazePoint.from_dict (d : List (String × PVal)) : Except PyExn GazePoint := do
  let cells ← cellFields d
  let xv ← pyFloatOf ((dictGet d "x_px").getD ((dictGet d "x").getD (.num 0)))
  let yv ← pyFloatOf ((dictGet d "y_px").getD ((dictGet d "y").getD (.num 0)))
  let ts ← pyFloatOf ((dictGet d "timestamp").getD (.num 0))
  let conf ← pyFloatOf ((dictGet d "confidence").getD (.num 1))
  let sq ← pyIntOf ((dictGet d "seq").getD (.num 0))
  return ⟨.ofRat xv, .ofRat yv, .ofRat ts, .ofRat conf, sq, cells.1, cells.2⟩

/-- `ServerInfo`, fields stored as provided. -/
structure ServerInfo where
  name : PVal
  version : PVal

/-- `ServerInfo.from_dict` with its "Unknown" / "1.0" defaults. -/
def ServerInfo.from_dict (d : List (String × PVal)) : ServerInfo :=
  ⟨(dictGet d "name").getD (.str "Unknown"),
   (dictGet d "version").getD (.str "1.0")⟩

/-- `MessageType`. -/
inductive MessageType where
  | gaze_point
  | calibration_start
  | calibration_end
  | error
  | status
  | hello
  deriving DecidableEq

/-- Contents of a `GazeMessage.error` field: the string of a caught
exception, a forwarded `data` field, or one of the formatted
unknown-payload messages. -/
inductive ErrVal where
  | exn (e : PyExn)
  | val (v : PVal)
  | invalidJson
  | unknownFormat (d : List (String × PVal))
  | unknownType

/-- `GazeMessage`. -/
structure GazeMessage where
  type : MessageType
  gaze_point : Option GazePoint
  error : Option ErrVal
  status : Option PVal
  server_info : Option ServerInfo

/-- A payload handed to `parse_message`: raw bytes, a text payload carried
together with its `json.loads` outcome (the JSON library is external to
this repository), an already-structured mapping, or a value of any other
type. -/
inductive Payload where
  | bytes (data : List Nat)
  | text (parsed : Except String PVal)
  | dictval (d : List (String × PVal))
  | other

/-- The `data["type"] == "hello"` test. -/
def pvIsHello : Option PVal → Bool
  | some (.str s) => s == "hello"
  | _ => false

/-- The mapping branch of `parse_message`: hello, error, status and
gaze-point checks in source order; the gaze-point branch calls
`GazePoint.from_dict` unguarded, so its exceptions propagate. -/
def handle_dict (d : List (String × PVal)) : Except PyExn GazeMessage :=
  if pvIsHello (dictGet d "type") then
    .ok ⟨.hello, none, none, none, some (ServerInfo.from_dict d)⟩
  else
    match dictGet d "error" with
    | some v => .ok ⟨.error, none, some (.val v), none, none⟩
    | none =>
        if (dictGet d "status").isSome && !(dictGet d "x_px").isSome &&
            !(dictGet d "x").isSome then
          .ok ⟨.status, none, none, dictGet d "status", none⟩
        else if (dictGet d "x_px").isSome || (dictGet d "x").isSome then
          match GazePoint.from_dict d with
          | .ok gp => .ok ⟨.gaze_point, some gp, none, none, none⟩
          | .error e => .error e
        else .ok ⟨.error, none, some (.unknownFormat d), none, none⟩

/-- `parse_message`.  An `Except.error` result models an exception
propagating to the caller; every `Except.ok` result is the single returned
message. -/
def parse_message : Payload → Except PyExn GazeMessage
  | .bytes data =>
      match GazePoint.from_binary data with
      | .ok gp => .ok ⟨.gaze_point, some gp, none, none, none⟩
      | .error e => .ok ⟨.error, none, some (.exn e), none, none⟩
  | .text (.error _) => .ok ⟨.error, none, some .invalidJson, none, none⟩
  | .text (.ok (.dict d)) => handle_dict d
  | .text (.ok _) => .ok ⟨.error, none, some .unknownType, none, none⟩
  | .dictval d => handle_dict d
  | .other => .ok ⟨.error, none, some .unknownType, none, none⟩

/-! ### Codec theorems (C6, C7, C10) -/

/-- C6 counterexample: a 9-byte payload does not produce a decode-error
result — `from_binary`'s `>=` length comparisons accept it on the 8-byte
path (first eight bytes, receipt-time timestamp, confidence 1.0), so
`parse_message` returns a gaze-point message. -/
theorem C6_counterexample_nine_byte_payload_accepted :
    parse_message (.bytes (List.replicate 9 0)) =
      .ok ⟨.gaze_point,
        some ⟨.ofBits 0, .ofBits 0, .receiptTime, .ofRat 1, 0, none, none⟩,
        none, none, none⟩ := rfl

/-- C6 (amended): binary decoding is prefix-tolerant.  Any payload of at
least 16 bytes decodes as four little-endian 32-bit floats from its first
16 bytes; 12–15 bytes give three floats with confidence defaulting to 1.0;
8–11 bytes give two floats with the timestamp defaulting to the receipt
time and confidence to 1.0; only payloads shorter than 8 bytes produce a
decode-error result, which `parse_message` wraps into an error-typed
message rather than a raised fault. -/
theorem C6_amended_binary_decode_bands (data : List Nat) :
    parse_message (.bytes data) =
      if data.length < 8 then
        .ok ⟨.error, none, some (.exn .valueError), none, none⟩
      else
        .ok ⟨.gaze_point,
          some ⟨.ofBits (wordAt data 0), .ofBits (wordAt data 4),
            (if data.length < 12 then .receiptTime
              else .ofBits (wordAt data 8)),
            (if data.length < 16 then .ofRat 1
              else .ofBits (wordAt data 12)),
            0, none, none⟩,
          none, none, none⟩ := by
  simp only [parse_message, GazePoint.from_binary]
  split_ifs <;> first | rfl | omega

/-- Does the mapping contain a coordinate key (the condition routing
`parse_message` into `GazePoint.from_dict`)? -/
def hasGazeKeys (d : List (String × PVal)) : Bool :=
  (dictGet d "x_px").isSome || (dictGet d "x").isSome

theorem exceptOkBind {ε α β : Type} (a : α) (f : α → Except ε β) :
    (Except.ok a : Except ε α) >>= f = f a := rfl

theorem exceptErrorBind {ε α β : Type} (a : ε) (f : α → Except ε β) :
    (Except.error a : Except ε α) >>= f = Except.error a := rfl

theorem exceptPure {ε α : Type} (a : α) :
    (pure a : Except ε α) = Except.ok a := rfl

theorem handle_dict_error_cases (d : List (String × PVal)) (e : PyExn)
    (h : handle_dict d = .error e) :
    hasGazeKeys d = true ∧ GazePoint.from_dict d = .error e := by
  rw [handle_dict] at h
  by_cases h1 : pvIsHello (dictGet d "type") = true
  · rw [if_pos h1] at h
    cases h
  · rw [if_neg h1] at h
    rcases herr : dictGet d "error" with _ | v
    · simp only [herr] at h
      by_cases h2 : ((dictGet d "status").isSome && !(dictGet d "x_px").isSome &&
          !(dictGet d "x").isSome) = true
      · rw [if_pos h2] at h
        cases h
      · rw [if_neg h2] at h
        by_cases h3 : ((dictGet d "x_px").isSome || (dictGet d "x").isSome) = true
        · rw [if_pos h3] at h
          rcases hfd : GazePoint.from_dict d with e' | gp
          · simp only [hfd] at h
            injection h with h4
            exact ⟨by simpa [hasGazeKeys] using h3, by rw [h4]⟩
          · simp only [hfd] at h
            cases h
        · rw [if_neg h3] at h
          cases h
    · simp only [herr] at h
      cases h

/-- C7 counterexample: `parse_message` is not total: on the mapping with
`x = None`, `float(None)` raises `TypeError` inside `GazePoint.from_dict`,
which the mapping branch of `parse_message` does not catch, so the
exception escapes to the caller instead of an error-typed result. -/
theorem C7_counterexample_gaze_dict_raises :
    parse_message (.dictval [("x", .null)]) = .error .typeError := rfl

/-- C7 (amended): `parse_message` returns exactly one result and never
raises for byte payloads, text payloads and mappings that do not reach
gaze-point decoding; an exception escapes to the caller exactly when the
payload is (or is a text payload parsing to) a mapping carrying an
`x`/`x_px` key whose `GazePoint.from_dict` conversion raises, and it is
that exception. -/
theorem C7_amended_raise_only_from_gaze_dict (p : Payload) (e : PyExn)
    (h : parse_message p = .error e) :
    ∃ d, (p = .dictval d ∨ p = .text (.ok (.dict d))) ∧
      hasGazeKeys d = true ∧ GazePoint.from_dict d = .error e := by
  cases p with
  | bytes data =>
      rcases hfb : GazePoint.from_binary data with e' | gp <;>
        rw [parse_message, hfb] at h <;> cases h
  | text parsed =>
      rcases parsed with e' | v
      · cases h
      · rcases v with _ | b | q | s | l | d
        · cases h
        · cases h
        · cases h
        · cases h
        · cases h
        · exact ⟨d, Or.inr rfl, handle_dict_error_cases d e h⟩
  | dictval d => exact ⟨d, Or.inl rfl, handle_dict_error_cases d e h⟩
  | other => cases h

theorem C7_amended_raise_only_from_gaze_dict_witness :
    ∃ d, ((Payload.dictval [("x", PVal.null)]) = Payload.dictval d ∨
        (Payload.dictval [("x", PVal.null)]) = Payload.text (.ok (.dict d))) ∧
      hasGazeKeys d = true ∧
      GazePoint.from_dict d = .error PyExn.typeError :=
  C7_amended_raise_only_from_gaze_dict (.dictval [("x", .null)])
    .typeError rfl

/-- C10: decoding a gaze mapping never fails on missing companion fields
but fills each default independently: whenever the decode succeeds, a
missing `y`/`y_px` gives y = 0.0, a missing timestamp gives 0.0 (not
receipt time, unlike the 8-byte binary path), a missing confidence gives
1.0 and a missing `seq` gives 0 — each conditioned only on its own field's
absence; every decode failure is attributable to the `cell` field or to a
field value actually present in the mapping, never to a missing companion;
and the mapping with only x = 0.5 decodes through `parse_message` as a
gaze point (0.5, 0.0) with timestamp 0.0. -/
theorem C10_dict_missing_fields_default (d : List (String × PVal)) :
    (∀ g, GazePoint.from_dict d = .ok g →
      (dictGet d "y_px" = none → dictGet d "y" = none → g.y = .ofRat 0) ∧
      (dictGet d "timestamp" = none → g.timestamp = .ofRat 0) ∧
      (dictGet d "confidence" = none → g.confidence = .ofRat 1) ∧
      (dictGet d "seq" = none → g.seq = 0)) ∧
    (∀ e, GazePoint.from_dict d = .error e →
      cellFields d = .error e ∨
      (∃ v, (dictGet d "x_px" = some v ∨
          (dictGet d "x_px" = none ∧ dictGet d "x" = some v)) ∧
        pyFloatOf v = .error e) ∨
      (∃ v, (dictGet d "y_px" = some v ∨
          (dictGet d "y_px" = none ∧ dictGet d "y" = some v)) ∧
        pyFloatOf v = .error e) ∨
      (∃ v, dictGet d "timestamp" = some v ∧ pyFloatOf v = .error e) ∨
      (∃ v, dictGet d "confidence" = some v ∧ pyFloatOf v = .error e) ∨
      (∃ v, dictGet d "seq" = some v ∧ pyIntOf v = .error e)) ∧
    parse_message (.dictval [("x", PVal.num (1/2))]) =
      .ok ⟨.gaze_point,
        some ⟨.ofRat (1/2), .ofRat 0, .ofRat 0, .ofRat 1, 0, none, none⟩,
        none, none, none⟩ := by
  refine ⟨?_, ?_, rfl⟩
  · intro g hok
    rw [GazePoint.from_dict] at hok
    rcases hcle : cellFields d with ec | cl
    · rw [hcle, exceptErrorBind] at hok
      cases hok
    rw [hcle, exceptOkBind] at hok
    rcases hxe : pyFloatOf ((dictGet d "x_px").getD
        ((dictGet d "x").getD (.num 0))) with ex | xv
    · rw [hxe, exceptErrorBind] at hok
      cases hok
    rw [hxe, exceptOkBind] at hok
    rcases hye : pyFloatOf ((dictGet d "y_px").getD
        ((dictGet d "y").getD (.num 0))) with ey | yv
    · rw [hye, exceptErrorBind] at hok
      cases hok
    rw [hye, exceptOkBind] at hok
    rcases hte : pyFloatOf ((dictGet d "timestamp").getD (.num 0)) with et | tv
    · rw [hte, exceptErrorBind] at hok
      cases hok
    rw [hte, exceptOkBind] at hok
    rcases hce : pyFloatOf ((dictGet d "confidence").getD (.num 1)) with ecf | cv
    · rw [hce, exceptErrorBind] at hok
      cases hok
    rw [hce, exceptOkBind] at hok
    rcases hse : pyIntOf ((dictGet d "seq").getD (.num 0)) with es | sv
    · rw [hse, exceptErrorBind] at hok
      cases hok
    rw [hse, exceptOkBind, exceptPure] at hok
    cases hok
    refine ⟨?_, ?_, ?_, ?_⟩
    · intro hy1 hy2
      rw [hy1, hy2] at hye
      simp only [Option.getD_none, pyFloatOf] at hye
      injection hye with h'
      subst h'
      rfl
    · intro hts
      rw [hts] at hte
      simp only [Option.getD_none, pyFloatOf] at hte
      injection hte with h'
      subst h'
      rfl
    · intro hcf
      rw [hcf] at hce
      simp only [Option.getD_none, pyFloatOf] at hce
      injection hce with h'
      subst h'
      rfl
    · intro hsq
      rw [hsq] at hse
      simp only [Option.getD_none, pyIntOf] at hse
      injection hse with h'
      show sv = 0
      rw [← h']
      simp [pyIntTrunc]
  · intro e herr
    rw [GazePoint.from_dict] at herr
    rcases hcle : cellFields d with ec | cl
    · rw [hcle, exceptErrorBind] at herr
      injection herr with h'
      subst h'
      exact Or.inl rfl
    rw [hcle, exceptOkBind] at herr
    rcases hxe : pyFloatOf ((dictGet d "x_px").getD
        ((dictGet d "x").getD (.num 0))) with ex | xv
    · rw [hxe, exceptErrorBind] at herr
      injection herr with h'
      subst h'
      refine Or.inr (Or.inl ?_)
      rcases hpx : dictGet d "x_px" with _ | v
      · rcases hxx : dictGet d "x" with _ | v
        · rw [hpx, hxx] at hxe
          simp [pyFloatOf] at hxe
        · rw [hpx, hxx] at hxe
          simp only [Option.getD_none, Option.getD_some] at hxe
          exact ⟨v, Or.inr ⟨rfl, rfl⟩, hxe⟩
      · rw [hpx] at hxe
        simp only [Option.getD_some] at hxe
        exact ⟨v, Or.inl rfl, hxe⟩
    rw [hxe, exceptOkBind] at herr
    rcases hye : pyFloatOf ((dictGet d "y_px").getD
        ((dictGet d "y").getD (.num 0))) with ey | yv
    · rw [hye, exceptErrorBind] at herr
      injection herr with h'
      subst h'
      refine Or.inr (Or.inr (Or.inl ?_))
      rcases hpy : dictGet d "y_px" with _ | v
      · rcases hyy : dictGet d "y" with _ | v
        · rw [hpy, hyy] at hye
          simp [pyFloatOf] at hye
        · rw [hpy, hyy] at hye
          simp only [Option.getD_none, Option.getD_some] at hye
          exact ⟨v, Or.inr ⟨rfl, rfl⟩, hye⟩
      · rw [hpy] at hye
        simp only [Option.getD_some] at hye
        exact ⟨v, Or.inl rfl, hye⟩
    rw [hye, exceptOkBind] at herr
    rcases hte : pyFloatOf ((dictGet d "timestamp").getD (.num 0)) with et | tv
    · rw [hte, exceptErrorBind] at herr
      injection herr with h'
      subst h'
      refine Or.inr (Or.inr (Or.inr (Or.inl ?_)))
      rcases hpt : dictGet d "timestamp" with _ | v
      · rw [hpt] at hte
        simp [pyFloatOf] at hte
      · rw [hpt] at hte
        simp only [Option.getD_some] at hte
        exact ⟨v, rfl, hte⟩
    rw [hte, exceptOkBind] at herr
    rcases hce : pyFloatOf ((dictGet d "confidence").getD (.num 1)) with ecf | cv
    · rw [hce, exceptErrorBind] at herr
      injection herr with h'
      subst h'
      refine Or.inr (Or.inr (Or.inr (Or.inr (Or.inl ?_))))
      rcases hpc : dictGet d "confidence" with _ | v
      · rw [hpc] at hce
        simp [pyFloatOf] at hce
      · rw [hpc] at hce
        simp only [Option.getD_some] at hce
        exact ⟨v, rfl, hce⟩
    rw [hce, exceptOkBind] at herr
    rcases hse : pyIntOf ((dictGet d "seq").getD (.num 0)) with es | sv
    · rw [hse, exceptErrorBind] at herr
      injection herr with h'
      subst h'
      refine Or.inr (Or.inr (Or.inr (Or.inr (Or.inr ?_))))
      rcases hps : dictGet d "seq" with _ | v
      · rw [hps] at hse
        simp [pyIntOf] at hse
      · rw [hps] at hse
        simp only [Option.getD_some] at hse
        exact ⟨v, rfl, hse⟩
    rw [hse, exceptOkBind, exceptPure] at herr
    cases herr

theorem C10_dict_missing_fields_default_witness :
    ∃ g, GazePoint.from_dict [("x", PVal.num (1/2))] = .ok g ∧
      g.y = .ofRat 0 ∧ g.timestamp = .ofRat 0 ∧ g.confidence = .ofRat 1 ∧
      g.seq = 0 := by
  have h := (C10_dict_missing_fields_default [("x", PVal.num (1/2))]).1
    ⟨.ofRat (1/2), .ofRat 0, .ofRat 0, .ofRat 1, 0, none, none⟩ rfl
  exact ⟨_, rfl, h.1 rfl rfl, h.2.1 rfl, h.2.2.1 rfl, h.2.2.2 rfl⟩

end Glimpsh
